import Mathlib

/-!
Verification development for the Telegraph publishing module
(`src/parsing/tgraph.py`) of the RSS-to-Telegram bot: account pool with
flood-control-aware throttling, retry orchestration, and the HTML
sanitizer.  Python state is embedded as explicit state passing; `asyncio`
sleeps and network calls are reified as effect values; machine floats for
timestamps are embedded as rationals.
-/

namespace Tgraph

/-! ## Account model (`class Telegraph`) -/

/-- Errors visible to the orchestrator.  `telegraphError msg` embeds
`aiograph.exceptions.TelegraphError(msg)`; `timeoutErr` embeds
`TimeoutError` and `asyncio.exceptions.TimeoutError`; `clientError` and
`connectionError` embed `aiohttp.ClientError` and `ConnectionError`. -/
inductive TgErr where
  | telegraphError (msg : String) : TgErr
  | timeoutErr : TgErr
  | clientError : TgErr
  | connectionError : TgErr
deriving DecidableEq, Repr

/-- Result of a successful transport call (`aiograph.types.Page`): only the
`url` field is consumed by this module. -/
structure Page where
  url : String
deriving DecidableEq, Repr

/-- State of one `Telegraph` account object: the credential (`self.token`,
held by the `aiograph` superclass), `self.last_run`, and whether the
flood-control lock `self._fc_lock` is currently held.  The per-request
lock `self._request_lock` is transient (never observable across calls) and
is embedded by the serialization hypotheses of the timing theorems. -/
structure TgAccount where
  token : String
  last_run : ℚ
  fcLocked : Bool
deriving DecidableEq, Repr

/-- Observable effect of one `flood_wait` call. -/
inductive FloodEffect where
  | noop : FloodEffect
  | reprovisioned : FloodEffect
  | slept (secs : ℕ) : FloodEffect
deriving DecidableEq, Repr

/-- `Telegraph.flood_wait(retry_after)`: if `self._fc_lock` is already
locked, do nothing; otherwise acquire the lock (closing the gate) and
either call `create_account` (when `retry_after >= 60`; `newToken` is the
credential the service would issue) or `asyncio.sleep(retry_after + 1)`,
then release the lock.  Returns the final account state (the gate is open
again on return) together with the effect performed. -/
def flood_wait (st : TgAccount) (retry_after : ℕ) (newToken : String) :
    TgAccount × FloodEffect :=
  if st.fcLocked then (st, .noop)
  else if 60 ≤ retry_after then ({ st with token := newToken }, .reprovisioned)
  else (st, .slept (retry_after + 1))

/-- The sleep performed by `Telegraph.create_page` after acquiring
`self._request_lock`: `max(0.5 - (time.time() - self.last_run), 0)`,
where `now` is the value of `time.time()` at that point. -/
def create_page_sleep (now last_run : ℚ) : ℚ :=
  max (1/2 - (now - last_run)) 0

/-- The instant the transport call of `create_page` begins: the lock
acquisition time plus the spacing sleep. -/
def transport_begin (tAcquire last_run : ℚ) : ℚ :=
  tAcquire + create_page_sleep tAcquire last_run

/-- State update performed by `Telegraph.create_page` around the transport
call: on success, `self.last_run = time.time()` (`now` is the time at
which the transport call returned); on any exception the state is left
untouched and the exception propagates. -/
def create_page_update (st : TgAccount) (now : ℚ) (res : Except TgErr Page) :
    TgAccount × Except TgErr Page :=
  match res with
  | .ok page => ({ st with last_run := now }, .ok page)
  | .error e => (st, .error e)

/-! ## Account pool (`class APIs`) -/

/-- `APIs.valid`: `bool(self._accounts)`. -/
def APIs_valid (accounts : List TgAccount) : Bool :=
  !accounts.isEmpty

/-- `APIs.get_account`, abstracted over the pool contents: given the number
of accounts and the current cursor `self._curr_id`, raise
`TelegraphError` on an empty pool, otherwise return the index served and
the new cursor.  (`self._curr_id` is only ever assigned `0` or a
successor, so the Python `0 <= self._curr_id` guard is the trivial side of
the `Nat` embedding.) -/
def get_account (accountsLen curr_id : ℕ) : Except TgErr (ℕ × ℕ) :=
  if accountsLen = 0 then .error (.telegraphError "Telegraph token no set!")
  else
    let curr := if curr_id < accountsLen then curr_id else 0
    .ok (curr, if curr + 1 < accountsLen then curr + 1 else 0)

/-- Indices served by `m` successive `get_account` calls on a pool of `N`
accounts starting from cursor `c`.  (On an empty pool the raised error
ends the sequence.) -/
def runCalls (N : ℕ) : ℕ → ℕ → List ℕ
  | _, 0 => []
  | c, m + 1 =>
    match get_account N c with
    | .error _ => []
    | .ok (i, c1) => i :: runCalls N c1 m

/-- Cursor value after `m` successive `get_account` calls starting from
cursor `c` (unchanged on an empty pool, where the call raises). -/
def cursorAfter (N : ℕ) : ℕ → ℕ → ℕ
  | c, 0 => c
  | c, m + 1 =>
    match get_account N c with
    | .error _ => c
    | .ok (_, c1) => cursorAfter N c1 m

/-- Whitespace stripping of `str.strip()` on the character-list embedding
of a Python string. -/
def pyStrip (l : List Char) : List Char :=
  ((l.dropWhile Char.isWhitespace).reverse.dropWhile Char.isWhitespace).reverse

/-- Per-token preprocessing at the top of `APIs.init`: `token =
token.strip()`, then the well-formedness test `len(token) != 60` deciding
whether `create_account` is called before validation.  Returns the
credential actually used and whether the length test flagged it. -/
def init_token (token : List Char) : List Char × Bool :=
  let t := pyStrip token
  (t, decide (t.length ≠ 60))

/-- The `APIs.init` loop: each configured token is stripped and handed to
the setup sequence (session creation, optional `create_account`,
`get_account_info` validation, re-issuance on `TelegraphError`), which
either yields an account appended to `self._accounts` or drops the token
with a warning.  The network-dependent setup outcome is abstracted as the
oracle `setup`; stripping before any use is taken from line
`token = token.strip()`. -/
def APIs_init (tokens : List (List Char)) (setup : List Char → Option TgAccount) :
    List TgAccount :=
  match tokens with
  | [] => []
  | t :: ts =>
    match setup (pyStrip t) with
    | some a => a :: APIs_init ts setup
    | none => APIs_init ts setup

/-- A setup oracle under which every credential fails both validation and
re-issuance and is dropped. -/
def droppedSetup : List Char → Option TgAccount :=
  fun _ => none

/-! ## Sanitizer (`TelegraphIfy.__init__`, lines 128-134) -/

/-- `TELEGRAPH_ALLOWED_TAGS` from the source. -/
def TELEGRAPH_ALLOWED_TAGS : List String :=
  ["a", "aside", "b", "blockquote", "br", "code", "em", "figcaption", "figure",
   "h3", "h4", "hr", "i", "iframe", "img", "li", "ol", "p", "pre", "s",
   "strong", "u", "ul", "video"]

/-- `ALLOWED_ATTRS` from the source. -/
def ALLOWED_ATTRS : List String := ["href", "src"]

/-- A node of the parsed markup tree (`BeautifulSoup` element tree):
either a text node (`NavigableString`) or a tag with its attribute
dictionary and children. -/
inductive HNode where
  | text (s : String) : HNode
  | elem (nm : String) (attrs : List (String × String)) (children : List HNode) : HNode
deriving Repr

mutual

/-- Net effect of the sanitizer loop on one node of the original tree.
The loop iterates over a snapshot (`soup.find_all(recursive=True)`) of all
tags in document order; a tag whose name is not in
`TELEGRAPH_ALLOWED_TAGS` is replaced in place by its children
(`tag.replaceWithChildren()`), which the snapshot still visits later; an
allowed tag keeps only the attributes in `ALLOWED_ATTRS`.  Each node is
visited exactly once and its fate depends only on its own name and
attributes, so the loop's net effect is this recursive descent: a node
becomes either itself (sanitized) or the sanitized sequence of its
children. -/
def sanitizeNode : HNode → List HNode
  | .text s => [.text s]
  | .elem nm attrs children =>
    if TELEGRAPH_ALLOWED_TAGS.contains nm then
      [.elem nm (attrs.filter fun a => ALLOWED_ATTRS.contains a.1)
        (sanitizeChildren children)]
    else
      sanitizeChildren children

/-- The sanitizer applied to a sibling sequence (concatenating the result
of each node, as `replaceWithChildren` splices children into the parent in
place). -/
def sanitizeChildren : List HNode → List HNode
  | [] => []
  | n :: ns => sanitizeNode n ++ sanitizeChildren ns

end

/-- Attribute rendering of the `str(soup)` serialization. -/
def renderAttrs : List (String × String) → String
  | [] => ""
  | (k, v) :: rest => " " ++ k ++ "=\"" ++ v ++ "\"" ++ renderAttrs rest

mutual

/-- `str(soup)` serialization of one node. -/
def renderNode : HNode → String
  | .text s => s
  | .elem nm attrs kids =>
    "<" ++ nm ++ renderAttrs attrs ++ ">" ++ renderForest kids ++ "</" ++ nm ++ ">"

/-- `str(soup)` serialization of a sibling sequence. -/
def renderForest : List HNode → String
  | [] => ""
  | n :: ns => renderNode n ++ renderForest ns

end

/-! ## `TelegraphIfy.__init__`: guard and content assembly -/

/-- The guard at the top of `TelegraphIfy.__init__`: `if not apis: raise
TelegraphError(...)`.  The module-level `apis` is `None` whenever no valid
pool exists (no token configured, or pool initialization yielded no
accounts). -/
def telegraphIfy_guard (apis : Option (List TgAccount × ℕ)) : Except TgErr Unit :=
  match apis with
  | none => .error (.telegraphError "Telegraph token no set!")
  | some _ => .ok ()

/-- Python truthiness of the optional `link` argument (`None` and the
empty string are falsy). -/
def pyTruthy : Option String → Bool
  | none => false
  | some s => !s.isEmpty

/-- The fixed attribution footer literal concatenated after `str(soup)`
(adjacent string literals of lines 147-152). -/
def RSStT_footer : String :=
  "<br><br>Generated by " ++
  "<a href=\x27https://github.com/Rongronggg9/RSS-to-Telegram-Bot\x27>RSStT</a>. " ++
  "The copyright belongs to the source site.<br>" ++
  "If images cannot be loaded properly due to anti-hotlinking, " ++
  "please consider install " ++
  "<a href=\x27https://greasyfork.org/scripts/432923\x27>this userscript</a>."

/-- The f-string `"<br><br><a href='{link}'>Source</a>"`. -/
def source_line (link : String) : String :=
  "<br><br><a href=\x27" ++ link ++ "\x27>Source</a>"

/-- `self.telegraph_html_content` as assigned on lines 146-153.  Python
precedence makes the conditional expression cover the entire
concatenation: the expression parses as
`(str(soup) + footer + f"...{link}...") if link else ''`, so when `link`
is falsy the whole content, sanitized body included, collapses to the
empty string. -/
def telegraph_html_content (soupStr : String) (link : Option String) : String :=
  if pyTruthy link then soupStr ++ RSStT_footer ++ source_line (link.getD "")
  else ""

/-! ## Orchestrator (`TelegraphIfy.telegraph_ify`) -/

/-- Terminal outcome of one `telegraph_ify` call chain.  `overflowErr`
embeds `raise OverflowError`; `fuelOut` marks an execution that has not
terminated within the given fuel. -/
inductive IfyResult where
  | url (s : String) : IfyResult
  | overflowErr : IfyResult
  | err (e : TgErr) : IfyResult
  | fuelOut : IfyResult
deriving DecidableEq, Repr

/-- The flood-control test on a `TelegraphError` message:
`e_msg.startswith('FLOOD_WAIT_')`. -/
def isFloodMsg (msg : String) : Bool :=
  msg.startsWith "FLOOD_WAIT_"

/-- `TelegraphIfy.telegraph_ify`, fuel-bounded.  `transport i` is the
outcome of the `create_page` transport call of the `i`-th attempt
(account selection via `apis.get_account()` does not influence the control
flow and is elided; the concurrent `flood_wait` of the flood branch only
touches the account gate and is modelled separately by `flood_wait`).
The recursion mirrors the source exactly: `retries >= 3` raises
`OverflowError`; a `FLOOD_WAIT_` `TelegraphError` increments
`self.retries` and recurses; any other `TelegraphError` re-raises; a
timeout re-raises; a `ClientError`/`ConnectionError` recurses when
`self.retries < 3` — without touching `self.retries` — and re-raises
otherwise.  Returns the outcome and the number of transport attempts
made. -/
def telegraph_ify (transport : ℕ → Except TgErr String) :
    ℕ → ℕ → ℕ → IfyResult × ℕ
  | 0, _, _ => (.fuelOut, 0)
  | fuel + 1, retries, attempt =>
    if 3 ≤ retries then (.overflowErr, 0)
    else
      match transport attempt with
      | .ok u => (.url u, 1)
      | .error (.telegraphError msg) =>
        if isFloodMsg msg then
          let r := telegraph_ify transport fuel (retries + 1) (attempt + 1)
          (r.1, r.2 + 1)
        else (.err (.telegraphError msg), 1)
      | .error .timeoutErr => (.err .timeoutErr, 1)
      | .error e =>
        if retries < 3 then
          let r := telegraph_ify transport fuel retries (attempt + 1)
          (r.1, r.2 + 1)
        else (.err e, 1)

/-- A transport stub that always raises a generic transient network error
(`aiohttp.ClientError`), never flood control and never a timeout. -/
def alwaysClientError : ℕ → Except TgErr String :=
  fun _ => .error .clientError

/-! ## Claim theorems -/

/-- Claim C3: on an account whose flood gate is open, `flood_wait` with
`retry_after ≥ 60` reprovisions the account in place with the brand-new
credential and reopens the gate immediately without any cooldown sleep,
while `retry_after < 60` sleeps exactly `retry_after + 1` seconds and then
reopens the gate. -/
theorem c3_flood_wait_cases (st : TgAccount) (r : ℕ) (tok : String)
    (hopen : st.fcLocked = false) :
    (60 ≤ r → flood_wait st r tok = ({ st with token := tok }, .reprovisioned))
    ∧ (r < 60 → flood_wait st r tok = (st, .slept (r + 1))) := by
  refine ⟨fun h => ?_, fun h => ?_⟩
  · simp [flood_wait, hopen, h]
  · simp [flood_wait, hopen, Nat.not_le.mpr h]

/-- Witness for C3: retry-after 90 on an open-gate account replaces the
credential without sleeping. -/
theorem c3_flood_wait_cases_witness :
    flood_wait ⟨"oldtok", 0, false⟩ 90 "newtok" =
      (⟨"newtok", 0, false⟩, .reprovisioned) :=
  (c3_flood_wait_cases ⟨"oldtok", 0, false⟩ 90 "newtok" rfl).1 (by decide)

/-- Claim C6: `flood_wait` on an account whose flood gate is already
closed is a no-op for every `retry_after`: no sleep, no new credential,
state unchanged. -/
theorem c6_flood_wait_noop (st : TgAccount) (r : ℕ) (tok : String)
    (hclosed : st.fcLocked = true) :
    flood_wait st r tok = (st, .noop) := by
  simp [flood_wait, hclosed]

/-- Witness for C6 at a concrete closed-gate account. -/
theorem c6_flood_wait_noop_witness :
    flood_wait ⟨"tok", 0, true⟩ 90 "newtok" = (⟨"tok", 0, true⟩, .noop) :=
  c6_flood_wait_noop ⟨"tok", 0, true⟩ 90 "newtok" rfl

/-- Claim C9: `create_page` updates `last_run` only when the transport
call returns successfully; on any transport error the account state is
returned unchanged and the error propagates, and even on success the
credential and the flood gate are untouched. -/
theorem c9_create_page_frame (st : TgAccount) (now : ℚ) :
    (∀ e : TgErr, create_page_update st now (.error e) = (st, .error e))
    ∧ ∀ p : Page,
        (create_page_update st now (.ok p)).1.last_run = now
        ∧ (create_page_update st now (.ok p)).1.token = st.token
        ∧ (create_page_update st now (.ok p)).1.fcLocked = st.fcLocked
        ∧ (create_page_update st now (.ok p)).2 = .ok p :=
  ⟨fun _ => rfl, fun _ => ⟨rfl, rfl, rfl, rfl⟩⟩

/-- Claim C4: with `b1` the instant the first transport call begins, `e1`
the instant it returns (when `last_run` is written), and `a2 ≥ e1` the
instant the second call acquires the request lock (the exclusive lock
serializes the calls, so the second acquisition happens after the first
call completes), the second transport call begins no earlier than 500 ms
after the first began. -/
theorem c4_min_interval (b1 e1 a2 : ℚ) (h1 : b1 ≤ e1) (_h2 : e1 ≤ a2) :
    b1 + 1/2 ≤ transport_begin a2 e1 := by
  have hmax : (1/2 - (a2 - e1) : ℚ) ≤ create_page_sleep a2 e1 := le_max_left _ _
  unfold transport_begin
  linarith [hmax, h1]

/-- Witness for C4: first call begins and completes at t = 0; the second
acquires the lock immediately after; its transport call still fires at
t ≥ 0.5. -/
theorem c4_min_interval_witness :
    (0 : ℚ) + 1/2 ≤ transport_begin 0 0 :=
  c4_min_interval 0 0 0 (le_refl 0) (le_refl 0)

/-- Claim C8: with every configured credential dropped by setup (the empty
credential list included), the pool is invalid (`valid == false`),
`get_account` on the empty pool raises the configuration
`TelegraphError`, and the `TelegraphIfy` constructor raises the same
error when no valid pool exists — all before any transport call. -/
theorem c8_empty_pool (tokens : List (List Char))
    (setup : List Char → Option TgAccount) (hdrop : ∀ t, setup t = none) :
    APIs_valid (APIs_init tokens setup) = false
    ∧ (∀ c, get_account 0 c = .error (.telegraphError "Telegraph token no set!"))
    ∧ telegraphIfy_guard none = .error (.telegraphError "Telegraph token no set!") := by
  refine ⟨?_, fun c => rfl, rfl⟩
  induction tokens with
  | nil => rfl
  | cons t ts ih => simp only [APIs_init, hdrop]; exact ih

/-- Witness for C8: a one-token configuration whose setup always fails
yields an invalid pool. -/
theorem c8_empty_pool_witness :
    APIs_valid (APIs_init [['a']] droppedSetup) = false :=
  (c8_empty_pool [['a']] droppedSetup (fun _ => rfl)).1

/-- Claim C2 (code bug): by Python precedence the conditional on lines
146-153 covers the whole concatenation, so with no source link the
assembled content is the empty string — the sanitized body is discarded
and no footer is appended; with a link the content is body, footer, and
Source line as the claim describes. -/
theorem c2_content_empty_when_no_link :
    telegraph_html_content "<b>ok</b>" none = ""
    ∧ telegraph_html_content "<b>ok</b>" none ≠ "<b>ok</b>" ++ RSStT_footer
    ∧ telegraph_html_content "<b>ok</b>" (some "https://example.com/p") =
        "<b>ok</b>" ++ RSStT_footer ++ source_line "https://example.com/p" :=
  ⟨rfl, by decide, rfl⟩

/-- On a nonempty pool, `get_account` with an in-range cursor returns the
cursor and advances it modulo the pool size. -/
theorem get_account_ok (N c : ℕ) (hN : 0 < N) (hc : c < N) :
    get_account N c = .ok (c, (c + 1) % N) := by
  unfold get_account
  rw [if_neg hN.ne']
  simp only [if_pos hc]
  by_cases h : c + 1 < N
  · rw [if_pos h, Nat.mod_eq_of_lt h]
  · have he : c + 1 = N := le_antisymm hc (Nat.le_of_not_lt h)
    rw [if_neg h, he, Nat.mod_self]

/-- The served-index sequence in closed form: starting from an in-range
cursor `c0`, the `i`-th call serves index `(c0 + i) % N`. -/
theorem runCalls_eq_map (N : ℕ) (hN : 0 < N) (m : ℕ) :
    ∀ c0, c0 < N →
      runCalls N c0 m = (List.range m).map (fun i => (c0 + i) % N) := by
  induction m with
  | zero => intro c0 _; rfl
  | succ m ih =>
    intro c0 hc
    have hstep : runCalls N c0 (m + 1) = c0 :: runCalls N ((c0 + 1) % N) m := by
      rw [runCalls, get_account_ok N c0 hN hc]
    rw [hstep, ih _ (Nat.mod_lt _ hN), List.range_succ_eq_map]
    simp only [List.map_cons, List.map_map]
    have h0 : (c0 + 0) % N = c0 := by rw [Nat.add_zero, Nat.mod_eq_of_lt hc]
    have hfun : (fun i => ((c0 + 1) % N + i) % N)
        = ((fun i => (c0 + i) % N) ∘ Nat.succ) := by
      funext i
      show ((c0 + 1) % N + i) % N = (c0 + (i + 1)) % N
      rw [Nat.mod_add_mod]
      congr 1
      omega
    rw [h0, hfun]

/-- The closed-form index sequence has no duplicates as long as it is no
longer than one full rotation. -/
theorem nodup_seq (N c0 m : ℕ) (hm : m ≤ N) :
    ((List.range m).map (fun i => (c0 + i) % N)).Nodup := by
  refine List.Nodup.map_on ?_ (List.nodup_range m)
  intro i hi i2 hi2 hf
  have hiN : i < N := lt_of_lt_of_le (List.mem_range.mp hi) hm
  have hi2N : i2 < N := lt_of_lt_of_le (List.mem_range.mp hi2) hm
  have hmod : i % N = i2 % N := Nat.ModEq.add_left_cancel' c0 hf
  rwa [Nat.mod_eq_of_lt hiN, Nat.mod_eq_of_lt hi2N] at hmod

/-- Over one full rotation from an in-range cursor, every account index is
served exactly once. -/
theorem count_one_period (N c0 j : ℕ) (hN : 0 < N) (hc : c0 < N) (hj : j < N) :
    ((List.range N).map (fun i => (c0 + i) % N)).count j = 1 := by
  have hnd := nodup_seq N c0 N le_rfl
  have hmem : j ∈ (List.range N).map (fun i => (c0 + i) % N) := by
    refine List.mem_map.mpr ⟨(j + (N - c0)) % N, List.mem_range.mpr (Nat.mod_lt _ hN), ?_⟩
    rw [Nat.add_mod_mod]
    have harith : c0 + (j + (N - c0)) = N + j := by omega
    rw [harith, Nat.add_mod_left, Nat.mod_eq_of_lt hj]
  exact le_antisymm (List.nodup_iff_count_le_one.mp hnd j)
    (List.count_pos_iff.mpr hmem)

/-- Splitting the closed-form sequence after one full rotation. -/
theorem seq_split (N c0 k : ℕ) :
    (List.range (N + k)).map (fun i => (c0 + i) % N) =
      (List.range N).map (fun i => (c0 + i) % N)
        ++ (List.range k).map (fun i => (c0 + i) % N) := by
  rw [List.range_add, List.map_append, List.map_map]
  have hfun : ((fun i => (c0 + i) % N) ∘ (fun x => N + x))
      = (fun i => (c0 + i) % N) := by
    funext i
    show (c0 + (N + i)) % N = (c0 + i) % N
    have harith : c0 + (N + i) = c0 + i + N := by omega
    rw [harith, Nat.add_mod_right]
  rw [hfun]

/-- Each index is served `⌊m/N⌋` or `⌈m/N⌉` times over any `m` successive
calls (with `⌈m/N⌉ = (m + N - 1) / N`). -/
theorem count_seq (N j : ℕ) (hN : 0 < N) (hj : j < N) :
    ∀ m c0, c0 < N →
      ((List.range m).map (fun i => (c0 + i) % N)).count j = m / N
      ∨ ((List.range m).map (fun i => (c0 + i) % N)).count j = (m + N - 1) / N := by
  intro m
  induction m using Nat.strong_induction_on with
  | _ m ih =>
    intro c0 hc
    by_cases hm : m < N
    · have hle := List.nodup_iff_count_le_one.mp (nodup_seq N c0 m hm.le) j
      rcases Nat.le_one_iff_eq_zero_or_eq_one.mp hle with h0 | h1
      · left
        rw [h0, Nat.div_eq_of_lt hm]
      · right
        rw [h1]
        have hm1 : 1 ≤ m := by
          rcases Nat.eq_zero_or_pos m with hm0 | hpos
          · rw [hm0] at h1
            simp at h1
          · exact hpos
        symm
        exact Nat.div_eq_of_lt_le (by omega) (by omega)
    · have hk : m = N + (m - N) := by omega
      set k := m - N with hkdef
      have hrec := ih k (by omega) c0 hc
      rw [hk, seq_split, List.count_append, count_one_period N c0 j hN hc hj]
      rcases hrec with h | h
      · left
        rw [h]
        have : (N + k) / N = k / N + 1 := by
          rw [Nat.add_comm N k, Nat.add_div_right _ hN]
        omega
      · right
        rw [h]
        have : (N + k + N - 1) / N = (k + N - 1) / N + 1 := by
          have harith : N + k + N - 1 = (k + N - 1) + N := by omega
          rw [harith, Nat.add_div_right _ hN]
        omega

/-- After any number of calls from an in-range cursor, the cursor is still
in range. -/
theorem cursorAfter_lt (N : ℕ) (hN : 0 < N) (m : ℕ) :
    ∀ c0, c0 < N → cursorAfter N c0 m < N := by
  induction m with
  | zero => intro c0 hc; exact hc
  | succ m ih =>
    intro c0 hc
    rw [cursorAfter, get_account_ok N c0 hN hc]
    exact ih _ (Nat.mod_lt _ hN)

/-- Claim C5 counterexample: on a pool of `N = 1` account, `N + k = 2`
successive calls (`k = 1`) serve account 0 twice, not `⌈k/N⌉ = ⌊k/N⌋ = 1`
times as the claim counts. -/
theorem c5_count_counterexample :
    (runCalls 1 0 2).count 0 = 2 ∧ (1 + 1 - 1) / 1 = 1 ∧ 1 / 1 = 1
    ∧ (runCalls 1 0 2).count 0 ≠ 1 := by decide

/-- Claim C5 as amended: from an in-range cursor, `get_account` serves the
cursor and advances it modulo `N`; over `m` successive calls each account
is served `⌊m/N⌋` or `⌈m/N⌉` times (so over `N + k` calls, `1 + ⌊k/N⌋` or
`1 + ⌈k/N⌉` times); the sequence is cyclic with period `N`; and the
cursor stays in `[0, N)` after every call. -/
theorem c5_round_robin (N c0 m j : ℕ) (hN : 0 < N) (hc : c0 < N) (hj : j < N) :
    ((runCalls N c0 m).count j = m / N
      ∨ (runCalls N c0 m).count j = (m + N - 1) / N)
    ∧ (∀ i, i + N < m → (runCalls N c0 m)[i]? = (runCalls N c0 m)[i + N]?)
    ∧ cursorAfter N c0 m < N
    ∧ get_account N c0 = .ok (c0, (c0 + 1) % N) := by
  have hrep := runCalls_eq_map N hN m c0 hc
  refine ⟨?_, ?_, cursorAfter_lt N hN m c0 hc, get_account_ok N c0 hN hc⟩
  · rw [hrep]
    exact count_seq N j hN hj m c0 hc
  · intro i hi
    rw [hrep]
    rw [List.getElem?_map, List.getElem?_map,
      List.getElem?_range (by omega : i < m), List.getElem?_range hi]
    show Option.map (fun i => (c0 + i) % N) (some i)
      = Option.map (fun i => (c0 + i) % N) (some (i + N))
    simp only [Option.map]
    have harith : c0 + (i + N) = c0 + i + N := by omega
    rw [harith, Nat.add_mod_right]

/-- Witness for C5: on a pool of two accounts, five calls from cursor 0
serve account 1 either `⌊5/2⌋ = 2` or `⌈5/2⌉ = 3` times. -/
theorem c5_round_robin_witness :
    (runCalls 2 0 5).count 1 = 5 / 2 ∨ (runCalls 2 0 5).count 1 = (5 + 2 - 1) / 2 :=
  (c5_round_robin 2 0 5 1 (by decide) (by decide) (by decide)).1

/-- The sanitizer distributes over sibling concatenation. -/
theorem sanitizeChildren_append (a b : List HNode) :
    sanitizeChildren (a ++ b) = sanitizeChildren a ++ sanitizeChildren b := by
  induction a with
  | nil => rfl
  | cons n ns ih =>
    show sanitizeNode n ++ sanitizeChildren (ns ++ b)
      = sanitizeNode n ++ sanitizeChildren ns ++ sanitizeChildren b
    rw [ih, List.append_assoc]

/-- The attribute filter of the sanitizer is idempotent. -/
theorem filter_attrs_idem (attrs : List (String × String)) :
    ((attrs.filter fun a => ALLOWED_ATTRS.contains a.1).filter
        fun a => ALLOWED_ATTRS.contains a.1)
      = attrs.filter fun a => ALLOWED_ATTRS.contains a.1 := by
  rw [List.filter_filter]
  refine List.filter_congr ?_
  intro x _
  rw [Bool.and_self]

/-- Unfolding equation of `sanitizeNode` on a tag node. -/
theorem sanitizeNode_elem (nm : String) (attrs : List (String × String))
    (children : List HNode) :
    sanitizeNode (.elem nm attrs children) =
      if TELEGRAPH_ALLOWED_TAGS.contains nm then
        [.elem nm (attrs.filter fun a => ALLOWED_ATTRS.contains a.1)
          (sanitizeChildren children)]
      else sanitizeChildren children :=
  rfl

/-- Unfolding equation of `sanitizeChildren` on a cons cell. -/
theorem sanitizeChildren_cons (n : HNode) (ns : List HNode) :
    sanitizeChildren (n :: ns) = sanitizeNode n ++ sanitizeChildren ns :=
  rfl

mutual

/-- Sanitizing the output of `sanitizeNode` changes nothing. -/
theorem sanitizeNode_fixed (n : HNode) :
    sanitizeChildren (sanitizeNode n) = sanitizeNode n := by
  cases n with
  | text s => rfl
  | elem nm attrs children =>
    by_cases h : TELEGRAPH_ALLOWED_TAGS.contains nm
    · rw [sanitizeNode_elem, if_pos h, sanitizeChildren_cons, sanitizeNode_elem,
        if_pos h, filter_attrs_idem, sanitizeChildren_fixed children]
      rfl
    · rw [sanitizeNode_elem, if_neg h, sanitizeChildren_fixed children]

/-- Sanitizing the output of `sanitizeChildren` changes nothing: the
sanitizer is a fixed point on its own output. -/
theorem sanitizeChildren_fixed (l : List HNode) :
    sanitizeChildren (sanitizeChildren l) = sanitizeChildren l := by
  cases l with
  | nil => rfl
  | cons n ns =>
    rw [sanitizeChildren_cons, sanitizeChildren_append, sanitizeNode_fixed n,
      sanitizeChildren_fixed ns]

end

/-- The `BeautifulSoup(xml, 'lxml')` element tree of the input
`<div><script>x</script><b onclick="y">ok</b></div>` of the C7 example:
the lxml parser wraps the fragment in `html` and `body` elements; the
script body is a text node child of the `script` tag. -/
def exampleSoup : List HNode :=
  [.elem "html" [] [.elem "body" [] [.elem "div" []
    [.elem "script" [] [.text "x"],
     .elem "b" [("onclick", "y")] [.text "ok"]]]]]

/-- Claim C7 counterexample: sanitizing the example input does not yield
`<b>ok</b>`: unwrapping the disallowed `script` tag keeps its text child,
so the serialized output is `x<b>ok</b>`. -/
theorem c7_example_counterexample :
    renderForest (sanitizeChildren exampleSoup) = "x<b>ok</b>"
    ∧ renderForest (sanitizeChildren exampleSoup) ≠ "<b>ok</b>" :=
  ⟨rfl, by decide⟩

/-- Claim C7 as amended: the sanitizer is a fixed point on its own output
(running it twice yields no further changes); the example input sanitizes
to `x<b>ok</b>` — the disallowed wrappers are replaced in place by their
children, the `script` text content included, and `onclick` is removed
from the surviving `b` tag — and re-sanitizing that output, like
re-sanitizing `<b>ok</b>`, yields it unchanged. -/
theorem c7_sanitizer_fixed_point :
    (∀ l : List HNode, sanitizeChildren (sanitizeChildren l) = sanitizeChildren l)
    ∧ renderForest (sanitizeChildren exampleSoup) = "x<b>ok</b>"
    ∧ sanitizeChildren (sanitizeChildren exampleSoup) = sanitizeChildren exampleSoup
    ∧ sanitizeChildren [.elem "b" [] [.text "ok"]] = [.elem "b" [] [.text "ok"]] :=
  ⟨sanitizeChildren_fixed, rfl, rfl, rfl⟩


theorem dropWhile_ws_nil (ws : List Char) (h : ∀ c ∈ ws, Char.isWhitespace c) :
    ws.dropWhile Char.isWhitespace = [] := by
  induction ws with
  | nil => rfl
  | cons c cs ih =>
    rw [List.dropWhile_cons_of_pos (h c (List.mem_cons_self c cs))]
    exact ih fun x hx => h x (List.mem_cons_of_mem c hx)

/-- `pyStrip` is invariant under surrounding whitespace padding. -/
theorem pyStrip_pad (ws1 ws2 t : List Char)
    (h1 : ∀ c ∈ ws1, Char.isWhitespace c) (h2 : ∀ c ∈ ws2, Char.isWhitespace c) :
    pyStrip (ws1 ++ t ++ ws2) = pyStrip t := by
  unfold pyStrip
  rw [List.append_assoc, List.dropWhile_append_of_pos h1]
  by_cases hd : t.dropWhile Char.isWhitespace = []
  · rw [List.dropWhile_append, hd]
    simp [dropWhile_ws_nil ws2 h2]
  · rw [List.dropWhile_append]
    rw [if_neg (by simpa [List.isEmpty_iff] using hd)]
    rw [List.reverse_append]
    rw [List.dropWhile_append_of_pos fun c hc => h2 c (List.mem_reverse.mp hc)]

/-- Claim C10: each configured credential is stripped of surrounding
whitespace before the exact-length-60 well-formedness check and before
any use, so a whitespace-padded token is processed identically to the
bare token, both by the per-token check and by the `APIs.init` loop. -/
theorem c10_strip_before_check (ws1 ws2 t : List Char)
    (h1 : ∀ c ∈ ws1, Char.isWhitespace c) (h2 : ∀ c ∈ ws2, Char.isWhitespace c) :
    init_token (ws1 ++ t ++ ws2) = init_token t
    ∧ ∀ setup : List Char → Option TgAccount,
        APIs_init [ws1 ++ t ++ ws2] setup = APIs_init [t] setup := by
  have hs := pyStrip_pad ws1 ws2 t h1 h2
  constructor
  · unfold init_token
    rw [hs]
  · intro setup
    unfold APIs_init
    rw [hs]

/-- Witness for C10: the token "abc" padded by a space on each side goes
through the same check and the same use as the bare token. -/
theorem c10_strip_before_check_witness :
    init_token ([' '] ++ ['a', 'b', 'c'] ++ [' ']) = init_token ['a', 'b', 'c'] :=
  (c10_strip_before_check [' '] [' '] ['a', 'b', 'c']
    (by decide) (by decide)).1

/-- Claim C1 (code bug): the `ClientError`/`ConnectionError` branch of
`telegraph_ify` recurses without incrementing `self.retries`, so under a
transport that always raises a generic transient network error the
recursion never reaches the `retries >= 3` guard: for every fuel bound
the execution makes `fuel` attempts and never raises `OverflowError`. -/
theorem c1_network_retry_unbounded (fuel attempt : ℕ) :
    telegraph_ify alwaysClientError fuel 0 attempt = (.fuelOut, fuel) := by
  induction fuel generalizing attempt with
  | zero => rfl
  | succ n ih => simp [telegraph_ify, alwaysClientError, ih]

end Tgraph
